import Mathlib

/-!
Shallow embedding of the Float.js runtime schema-validation engine
(`packages/core/src/api/index.ts`) and its typed-route request pipeline.

JavaScript values are modelled by `JSValue`; JS numbers are modelled
exactly (rationals plus NaN and signed infinity), which is faithful for
every value the development evaluates.  Schemas are modelled by the
inductive `Schema`, whose constructors carry the same configuration the
source closures capture (ordered validator and transform lists, object
shape plus the two mode flags, union alternatives, optional inner schema
with or without a default).  `safeParse` is a direct transcription of the
safeParse implementations of the source.
-/

namespace FloatJs

/-- A JavaScript number: NaN, signed infinity, or an exact finite value. -/
inductive JNum where
  | nan
  | inf (pos : Bool)
  | val (q : ℚ)
deriving DecidableEq

/-- A JavaScript runtime value as seen by the validation engine. -/
inductive JSValue where
  | null
  | undefined
  | str (s : String)
  | num (n : JNum)
  | bool (b : Bool)
  | arr (elems : List JSValue)
  | obj (fields : List (String × JSValue))

/-- The `ValidationError` record of the source. -/
structure ValidationError where
  path : List String
  message : String
  received : JSValue
  expected : String

/-- The result of `safeParse`: the success/failure union of the source. -/
inductive ParseResult where
  | success (data : JSValue)
  | failure (error : ValidationError)

/-- A single-quote character, used when building error messages. -/
def sq : String := Char.toString (Char.ofNat 39)

-- ============================================================
-- JS `parseFloat` (ECMAScript §19.2.4), modelled exactly over ℚ
-- ============================================================

/-- JS whitespace recognised when trimming `parseFloat` input. -/
def isJsWhitespace (c : Char) : Bool :=
  c == ' ' || c == '\t' || c == '\n' || c == '\r' || c == '\x0b' || c == '\x0c'

def digitVal (c : Char) : Nat := c.toNat - 48

/-- Split a character list into its leading run of decimal digits and the rest. -/
def takeDigits : List Char → List Char × List Char
  | [] => ([], [])
  | c :: rest =>
    if c.isDigit then
      let p := takeDigits rest
      (c :: p.1, p.2)
    else ([], c :: rest)

def digitsToNat (ds : List Char) : Nat :=
  ds.foldl (fun acc c => acc * 10 + digitVal c) 0

/-- Does the character list start with the literal `Infinity`? -/
def matchInfinity : List Char → Bool
  | 'I' :: 'n' :: 'f' :: 'i' :: 'n' :: 'i' :: 't' :: 'y' :: _ => true
  | _ => false

/-- Parse a decimal mantissa (`digits`, `digits.digits`, `.digits`, `digits.`)
from the front of the list, returning the integer digits, the fraction
digits and the rest; `none` when no digit is found. -/
def parseMantissa (cs : List Char) : Option (List Char × List Char × List Char) :=
  let ip := takeDigits cs
  match ip.2 with
  | '.' :: r2 =>
    let fp := takeDigits r2
    if ip.1.isEmpty && fp.1.isEmpty then none
    else some (ip.1, fp.1, fp.2)
  | _ =>
    if ip.1.isEmpty then none
    else some (ip.1, [], ip.2)

/-- The exact value of `intDigits . fracDigits × 10 ^ e`. -/
def decimalValue (ints fracs : List Char) (e : Int) : ℚ :=
  let m : Nat := digitsToNat (ints ++ fracs)
  match e with
  | .ofNat k => mkRat (m * 10 ^ k) (10 ^ fracs.length)
  | .negSucc k => mkRat m (10 ^ fracs.length * 10 ^ (k + 1))

/-- Parse an optional exponent part (`e`/`E`, optional sign, digits) from the
front of the list; an incomplete exponent contributes `0` (it is simply
trailing junk to `parseFloat`). -/
def parseExponent (cs : List Char) : Int :=
  match cs with
  | c :: rest =>
    if c == 'e' || c == 'E' then
      match rest with
      | s :: rest2 =>
        if s == '+' then
          (if (takeDigits rest2).1.isEmpty then 0 else (digitsToNat (takeDigits rest2).1 : Int))
        else if s == '-' then
          (if (takeDigits rest2).1.isEmpty then 0 else -(digitsToNat (takeDigits rest2).1 : Int))
        else
          (if (takeDigits (s :: rest2)).1.isEmpty then 0
           else (digitsToNat (takeDigits (s :: rest2)).1 : Int))
      | [] => 0
    else 0
  | [] => 0

/-- JS `parseFloat`: skip leading whitespace, optional sign, then the longest
numeric-literal prefix (`Infinity` or a decimal mantissa with optional
exponent); `NaN` when no prefix parses. -/
def parseFloatJS (s : String) : JNum :=
  let cs := s.toList.dropWhile isJsWhitespace
  let signed : Bool × List Char :=
    match cs with
    | '-' :: rest => (true, rest)
    | '+' :: rest => (false, rest)
    | _ => (false, cs)
  if matchInfinity signed.2 then .inf (!signed.1)
  else
    match parseMantissa signed.2 with
    | none => .nan
    | some mr =>
      let q := decimalValue mr.1 mr.2.1 (parseExponent mr.2.2)
      .val (if signed.1 then -q else q)

-- ============================================================
-- Schemas
-- ============================================================

/-- A schema of the validation engine.  Each constructor carries exactly the
configuration its source factory closes over: the ordered `validators` and
`transforms` lists built by the chainable refinement methods, the object
`shape` with the `strictMode` and `passthroughMode` flags, the union
alternatives, and the optional wrapper (with or without a `.default`). -/
inductive Schema where
  | str (transforms : List (String → String)) (validators : List (String → Option String))
  | num (validators : List (JNum → Option String))
  | bool
  | arr (item : Schema) (validators : List (List JSValue → Option String))
  | obj (shape : List (String × Schema)) (strictMode : Bool) (passthroughMode : Bool)
  | enum (values : List String)
  | union (alternatives : List Schema)
  | optional (inner : Schema)
  | optionalDefault (inner : Schema) (defaultValue : JSValue)

/-- The `_type` tag of a schema (`optionalDefault` keeps the tag `optional`,
as in the source, where `.default` builds an object tagged optional). -/
def Schema.typeTag : Schema → String
  | .str _ _ => "string"
  | .num _ => "number"
  | .bool => "boolean"
  | .arr _ _ => "array"
  | .obj _ _ _ => "object"
  | .enum _ => "enum"
  | .union _ => "union"
  | .optional _ => "optional"
  | .optionalDefault _ _ => "optional"

/-- Run the chained validators in order, returning the first error message
(the source loops over `validators` and returns on the first non-null). -/
def runValidators {α : Type} : List (α → Option String) → α → Option String
  | [], _ => none
  | v :: rest, a =>
    match v a with
    | some e => some e
    | none => runValidators rest a

/-- Apply the chained string transforms in order
(`transformed = transform(transformed)` in the source). -/
def applyTransforms : List (String → String) → String → String
  | [], s => s
  | t :: rest, s => applyTransforms rest (t s)

/-- JS property read `obj[key]`: the stored value, or `undefined` when the
key is absent. -/
def lookupField (fields : List (String × JSValue)) (k : String) : JSValue :=
  match fields.find? (fun p => p.1 == k) with
  | some p => p.2
  | none => .undefined

/-- The strict-mode scan: the first input key (in insertion order) that is
not in the declared shape, together with its value. -/
def firstUnknown (shapeKeys : List String) : List (String × JSValue) → Option (String × JSValue)
  | [] => none
  | p :: rest => if shapeKeys.contains p.1 then firstUnknown shapeKeys rest else some p

mutual

/-- `safeParse`, transcribed case by case from the source factories. -/
def safeParse : Schema → JSValue → ParseResult
  | .str transforms validators, v =>
    match v with
    | .str s =>
      let transformed := applyTransforms transforms s
      match runValidators validators transformed with
      | some msg => .failure ⟨[], msg, .str s, "string"⟩
      | none => .success (.str transformed)
    | _ => .failure ⟨[], "Expected string", v, "string"⟩
  | .num validators, v =>
    -- const num = typeof value === "string" ? parseFloat(value) : value
    let coerced : JSValue :=
      match v with
      | .str s => .num (parseFloatJS s)
      | _ => v
    match coerced with
    | .num n =>
      if n = .nan then .failure ⟨[], "Expected number", v, "number"⟩
      else
        match runValidators validators n with
        | some msg => .failure ⟨[], msg, v, "number"⟩
        | none => .success (.num n)
    | _ => .failure ⟨[], "Expected number", v, "number"⟩
  | .bool, v =>
    match v with
    | .str s =>
      if s = "true" then .success (.bool true)
      else if s = "false" then .success (.bool false)
      else .failure ⟨[], "Expected boolean", .str s, "boolean"⟩
    | .bool b => .success (.bool b)
    | _ => .failure ⟨[], "Expected boolean", v, "boolean"⟩
  | .arr item validators, v =>
    match v with
    | .arr elems =>
      match runValidators validators elems with
      | some msg => .failure ⟨[], msg, .arr elems, "array"⟩
      | none =>
        match parseItems item elems 0 with
        | .error e => .failure e
        | .ok out => .success (.arr out)
    | _ => .failure ⟨[], "Expected array", v, "array"⟩
  | .obj shape strictMode passthroughMode, v =>
    match v with
    | .obj fields =>
      let shapeKeys := shape.map Prod.fst
      match (if strictMode then firstUnknown shapeKeys fields else none) with
      | some p =>
        .failure ⟨[p.1], "Unknown key " ++ sq ++ p.1 ++ sq, p.2, "undefined"⟩
      | none =>
        match parseFields shape fields with
        | .error e => .failure e
        | .ok validated =>
          let extra :=
            if passthroughMode then fields.filter (fun p => !(shapeKeys.contains p.1)) else []
          .success (.obj (validated ++ extra))
    | _ => .failure ⟨[], "Expected object", v, "object"⟩
  | .enum values, v =>
    match v with
    | .str s =>
      if values.contains s then .success (.str s)
      else
        .failure ⟨[], "Expected one of: " ++ String.intercalate ", " values, .str s,
          String.intercalate " | " values⟩
    | _ =>
      .failure ⟨[], "Expected one of: " ++ String.intercalate ", " values, v,
        String.intercalate " | " values⟩
  | .union alternatives, v =>
    match parseFirst alternatives v with
    | some r => r
    | none =>
      .failure ⟨[], "Value did not match any schema in union", v,
        String.intercalate " | " (alternatives.map Schema.typeTag)⟩
  | .optional inner, v =>
    match v with
    | .undefined => .success .undefined
    | .null => .success .undefined
    | _ => safeParse inner v
  | .optionalDefault inner d, v =>
    match v with
    | .undefined => .success d
    | .null => .success d
    | _ => safeParse inner v
termination_by s _ => (sizeOf s, 0)

/-- The object field loop: validate each declared field in shape order
against `obj[key]`, stop at the first failure (prefixing the field name onto
its path), and collect `result[key] = fieldResult.data` in shape order. -/
def parseFields : List (String × Schema) → List (String × JSValue) →
    Except ValidationError (List (String × JSValue))
  | [], _ => .ok []
  | (k, fieldSchema) :: rest, fields =>
    match safeParse fieldSchema (lookupField fields k) with
    | .failure e => .error { e with path := k :: e.path }
    | .success d =>
      match parseFields rest fields with
      | .error e => .error e
      | .ok out => .ok ((k, d) :: out)
termination_by shape _ => (sizeOf shape, 0)

/-- The array element loop: validate elements in index order, stop at the
first failure (prefixing `String(i)` onto its path), and push the validated
items into a fresh list. -/
def parseItems (item : Schema) : List JSValue → Nat → Except ValidationError (List JSValue)
  | [], _ => .ok []
  | x :: rest, i =>
    match safeParse item x with
    | .failure e => .error { e with path := toString i :: e.path }
    | .success d =>
      match parseItems item rest (i + 1) with
      | .error e => .error e
      | .ok out => .ok (d :: out)
termination_by xs _ => (sizeOf item, xs.length)

/-- The union loop: return the first alternative whose `safeParse` succeeds
(individual failures are collected and then discarded in the source). -/
def parseFirst : List Schema → JSValue → Option ParseResult
  | [], _ => none
  | s :: rest, v =>
    match safeParse s v with
    | .success d => some (.success d)
    | .failure _ => parseFirst rest v
termination_by ss _ => (sizeOf ss, 0)

end

-- ============================================================
-- Refinement builders (the closures pushed by the chain methods)
-- ============================================================

/-- `StringSchema.min(length, message?)`:
`val.length >= length ? null : (message || ...)`. -/
def minLengthValidator (len : Nat) (msg : Option String) : String → Option String :=
  fun val =>
    if len ≤ val.length then none
    else some (msg.getD ("Must be at least " ++ toString len ++ " characters"))

/-- `StringSchema.max(length, message?)`. -/
def maxLengthValidator (len : Nat) (msg : Option String) : String → Option String :=
  fun val =>
    if val.length ≤ len then none
    else some (msg.getD ("Must be at most " ++ toString len ++ " characters"))

/-- Does `s` match the email regex of the source,
`^[^\s@]+@[^\s@]+\.[^\s@]+$`?  Equivalently: a single `@`, a nonempty
whitespace-free local part, and a whitespace-free domain containing a dot
that is neither its first nor its last character. -/
def emailTest (s : String) : Bool :=
  let cs := s.toList
  let localPart := cs.takeWhile (fun c => c ≠ '@')
  match cs.dropWhile (fun c => c ≠ '@') with
  | '@' :: domain =>
    !localPart.isEmpty && localPart.all (fun c => !isJsWhitespace c) &&
    !domain.isEmpty && domain.all (fun c => !isJsWhitespace c && c ≠ '@') &&
    (domain.drop 1).dropLast.contains '.'
  | _ => false

/-- `StringSchema.email(message?)`. -/
def emailValidator (msg : Option String) : String → Option String :=
  fun val => if emailTest val then none else some (msg.getD "Invalid email address")

/-- `ArraySchema.max(length, message?)`. -/
def maxItemsValidator (len : Nat) (msg : Option String) : List JSValue → Option String :=
  fun val =>
    if val.length ≤ len then none
    else some (msg.getD ("Must have at most " ++ toString len ++ " items"))

-- ============================================================
-- `optional()`, `.default`, and the object schema builders
-- ============================================================

/-- `schema.optional()`: every factory wraps itself via
`createOptionalSchema(schema)`, except that calling it on an optional
schema returns the same wrapper, and calling it on a `.default` wrapper
returns the optional schema the wrapper was built from. -/
def Schema.optionalize : Schema → Schema
  | .optional inner => .optional inner
  | .optionalDefault inner _ => .optional inner
  | s => .optional s

/-- `OptionalSchema.default(value)` (the method exists only on optional
schemas; on any other schema this model is the identity). -/
def Schema.withDefault : Schema → JSValue → Schema
  | .optional inner, d => .optionalDefault inner d
  | s, _ => s

/-- The declared shape of an object schema (`_shape`). -/
def Schema.shapeOf : Schema → List (String × Schema)
  | .obj shape _ _ => shape
  | _ => []

/-- The `strictMode` flag of an object schema. -/
def Schema.strictOf : Schema → Bool
  | .obj _ sm _ => sm
  | _ => false

/-- The `passthroughMode` flag of an object schema. -/
def Schema.passthroughOf : Schema → Bool
  | .obj _ _ pm => pm
  | _ => false

/-- `ObjectSchema.strict()`: sets `strictMode = true` on the schema. -/
def Schema.setStrict : Schema → Schema
  | .obj shape _ pm => .obj shape true pm
  | s => s

/-- `ObjectSchema.passthrough()`: sets `passthroughMode = true`. -/
def Schema.setPassthrough : Schema → Schema
  | .obj shape sm _ => .obj shape sm true
  | s => s

/-- `ObjectSchema.partial()`: wraps every field in `optional()` and calls
`createObjectSchema` on the new shape (fresh schema, both modes `false`). -/
def objectPartialOf : Schema → Schema
  | .obj shape _ _ => .obj (shape.map (fun p => (p.1, Schema.optionalize p.2))) false false
  | s => s

/-- `ObjectSchema.pick(...keys)`: `pickedShape[key] = shape[key]` for each
requested key, then `createObjectSchema` (keys outside the shape are ruled
out by the TypeScript types and are ignored here). -/
def objectPickOf (keys : List String) : Schema → Schema
  | .obj shape _ _ =>
    .obj (keys.filterMap (fun k => (shape.find? (fun p => p.1 == k)).map (fun p => (k, p.2))))
      false false
  | s => s

/-- `ObjectSchema.omit(...keys)`: copies the shape, deletes the listed keys,
then `createObjectSchema`. -/
def objectOmitOf (keys : List String) : Schema → Schema
  | .obj shape _ _ => .obj (shape.filter (fun p => !(keys.contains p.1))) false false
  | s => s

/-- JS object spread `{...a, ...b}` on shapes: keys of `a` in order (values
overridden by `b` where shared), then the new keys of `b` in order. -/
def spreadShapes (a b : List (String × Schema)) : List (String × Schema) :=
  a.map (fun p => ((b.find? (fun q => q.1 == p.1)).map (fun q => (p.1, q.2))).getD p) ++
  b.filter (fun q => !((a.map Prod.fst).contains q.1))

/-- `ObjectSchema.extend(extension)`:
`createObjectSchema({...shape, ...extension})`. -/
def objectExtendOf (ext : List (String × Schema)) : Schema → Schema
  | .obj shape _ _ => .obj (spreadShapes shape ext) false false
  | s => s

/-- `ObjectSchema.merge(other)`:
`createObjectSchema({...shape, ...other._shape})`. -/
def objectMergeOf (other : Schema) : Schema → Schema
  | .obj shape _ _ => .obj (spreadShapes shape other.shapeOf) false false
  | s => s

-- ============================================================
-- Spec-side notions for the round-trip property (§8, first bullet)
-- ============================================================

mutual

/-- No union node occurs anywhere in the schema. -/
def unionFree : Schema → Bool
  | .str _ _ => true
  | .num _ => true
  | .bool => true
  | .enum _ => true
  | .arr item _ => unionFree item
  | .obj shape _ _ => unionFreeShape shape
  | .union _ => false
  | .optional inner => unionFree inner
  | .optionalDefault inner _ => unionFree inner
termination_by s => (sizeOf s, 0)

def unionFreeShape : List (String × Schema) → Bool
  | [] => true
  | (_, fieldSchema) :: rest => unionFree fieldSchema && unionFreeShape rest
termination_by shape => (sizeOf shape, 0)

end

mutual

/-- Spec-side predicate: the input is of the declared kind of the schema (no
string-to-number or string-to-boolean coercion) and satisfies every declared
constraint; object inputs carry no undeclared key.  This formalises the hypothesis that the input matches the declared shape of
the schema and satisfies all its constraints. -/
def matchesShape : Schema → JSValue → Bool
  | .str transforms validators, v =>
    match v with
    | .str s => (runValidators validators (applyTransforms transforms s)).isNone
    | _ => false
  | .num validators, v =>
    match v with
    | .num .nan => false
    | .num n => (runValidators validators n).isNone
    | _ => false
  | .bool, v =>
    match v with
    | .bool _ => true
    | _ => false
  | .enum values, v =>
    match v with
    | .str s => values.contains s
    | _ => false
  | .arr item validators, v =>
    match v with
    | .arr elems => (runValidators validators elems).isNone && matchesItems item elems
    | _ => false
  | .obj shape _ _, v =>
    match v with
    | .obj fields =>
      fields.all (fun p => (shape.map Prod.fst).contains p.1) && matchesFields shape fields
    | _ => false
  | .union _, _ => false
  | .optional inner, v =>
    match v with
    | .null => true
    | .undefined => true
    | _ => matchesShape inner v
  | .optionalDefault inner _, v =>
    match v with
    | .null => true
    | .undefined => true
    | _ => matchesShape inner v
termination_by s _ => (sizeOf s, 0)

def matchesItems (item : Schema) : List JSValue → Bool
  | [] => true
  | x :: rest => matchesShape item x && matchesItems item rest
termination_by xs => (sizeOf item, xs.length)

def matchesFields : List (String × Schema) → List (String × JSValue) → Bool
  | [], _ => true
  | (k, fieldSchema) :: rest, fields =>
    matchesShape fieldSchema (lookupField fields k) && matchesFields rest fields
termination_by shape _ => (sizeOf shape, 0)

end

mutual

/-- Spec-side expected output of a successful parse: the input itself up to
declared string transforms and optional-default substitution, with arrays
rebuilt elementwise and objects rebuilt with exactly the declared fields
(in declaration order) carrying the looked-up input values. -/
def conform : Schema → JSValue → JSValue
  | .str transforms _, v =>
    match v with
    | .str s => .str (applyTransforms transforms s)
    | _ => v
  | .arr item _, v =>
    match v with
    | .arr elems => .arr (conformItems item elems)
    | _ => v
  | .obj shape _ _, v =>
    match v with
    | .obj fields => .obj (conformFields shape fields)
    | _ => v
  | .optional inner, v =>
    match v with
    | .null => .undefined
    | .undefined => .undefined
    | _ => conform inner v
  | .optionalDefault inner d, v =>
    match v with
    | .null => d
    | .undefined => d
    | _ => conform inner v
  | _, v => v
termination_by s _ => (sizeOf s, 0)

def conformItems (item : Schema) : List JSValue → List JSValue
  | [] => []
  | x :: rest => conform item x :: conformItems item rest
termination_by xs => (sizeOf item, xs.length)

def conformFields : List (String × Schema) → List (String × JSValue) → List (String × JSValue)
  | [], _ => []
  | (k, fieldSchema) :: rest, fields =>
    (k, conform fieldSchema (lookupField fields k)) :: conformFields rest fields
termination_by shape _ => (sizeOf shape, 0)

end

-- ============================================================
-- The typed-route pipeline (`typedRoute`)
-- ============================================================

/-- The `{body?, query?, params?}` options record of `typedRoute`. -/
structure TypedRouteOptions where
  body : Option Schema
  query : Option Schema
  params : Option Schema

/-- An exception escaping the handler: either a thrown
`FloatValidationError` (carrying its `errors` array) or any other throw. -/
inductive JSException where
  | validation (errors : List ValidationError)
  | other

/-- A transport request, abstracted: the result of `await request.json()`
(`Except.error` when the body is malformed JSON), the flat string map pulled
from the search parameters of the URL, and the route params object. -/
structure ModelRequest where
  jsonBody : Except Unit JSValue
  queryObj : List (String × String)
  params : JSValue

/-- The `validated` bundle attached to the request. -/
structure ValidatedData where
  body : JSValue
  query : JSValue
  params : JSValue

/-- A wire response: status code plus the value passed to
`JSON.stringify` as its body. -/
structure ModelResponse where
  status : Nat
  body : JSValue

/-- `typeof` of a modelled JS value (`typeof null` is `"object"`). -/
def jsTypeof : JSValue → String
  | .null => "object"
  | .undefined => "undefined"
  | .str _ => "string"
  | .num _ => "number"
  | .bool _ => "boolean"
  | .arr _ => "object"
  | .obj _ => "object"

/-- One entry of `FloatValidationError.toJSON().details`:
the path joined by dots (`root` when the join is empty), the message, and `typeof` of the received value. -/
def errorDetail (e : ValidationError) : JSValue :=
  let joined := String.intercalate "." e.path
  .obj [("path", .str (if joined = "" then "root" else joined)),
        ("message", .str e.message),
        ("received", .str (jsTypeof e.received))]

/-- `FloatValidationError.toJSON()`. -/
def fveToJSON (errors : List ValidationError) : JSValue :=
  .obj [("error", .str "Validation Error"),
        ("details", .arr (errors.map errorDetail))]

/-- `FloatValidationError.toResponse()`: the structured 400. -/
def fveToResponse (errors : List ValidationError) : ModelResponse :=
  ⟨400, fveToJSON errors⟩

/-- The generic 400 for a JSON decode failure. -/
def invalidJsonResponse : ModelResponse :=
  ⟨400, .obj [("error", .str "Invalid JSON body")]⟩

/-- The generic 500 for an uncaught handler exception. -/
def internalErrorResponse : ModelResponse :=
  ⟨500, .obj [("error", .str "Internal server error")]⟩

/-- `typedRoute(options, handler)` applied to one request: validate body
(distinguishing JSON decode failure from schema failure), then query, then
params, then run the handler, catching a thrown `FloatValidationError`
specially and any other exception generically. -/
def typedRoute (options : TypedRouteOptions)
    (handler : ValidatedData → Except JSException ModelResponse)
    (request : ModelRequest) : ModelResponse :=
  let bodyStep : Except ModelResponse JSValue :=
    match options.body with
    | none => .ok .undefined
    | some bodySchema =>
      match request.jsonBody with
      | .error _ => .error invalidJsonResponse
      | .ok body =>
        match safeParse bodySchema body with
        | .failure e => .error (fveToResponse [e])
        | .success d => .ok d
  match bodyStep with
  | .error r => r
  | .ok bodyData =>
    let queryStep : Except ModelResponse JSValue :=
      match options.query with
      | none => .ok .undefined
      | some querySchema =>
        match safeParse querySchema (.obj (request.queryObj.map (fun p => (p.1, .str p.2)))) with
        | .failure e => .error (fveToResponse [e])
        | .success d => .ok d
    match queryStep with
    | .error r => r
    | .ok queryData =>
      let paramsStep : Except ModelResponse JSValue :=
        match options.params with
        | none => .ok .undefined
        | some paramsSchema =>
          match safeParse paramsSchema request.params with
          | .failure e => .error (fveToResponse [e])
          | .success d => .ok d
      match paramsStep with
      | .error r => r
      | .ok paramsData =>
        match handler ⟨bodyData, queryData, paramsData⟩ with
        | .ok r => r
        | .error (.validation errors) => fveToResponse errors
        | .error .other => internalErrorResponse

-- ============================================================
-- Claim theorems
-- ============================================================

/-- C7: for an optional schema, `safeParse` of `null` or `undefined`
succeeds with `undefined`; after `.default(d)` was applied it succeeds with
`d` instead; any other input is delegated to the inner schema. -/
theorem optionalNullUndefinedDefault (inner : Schema) (d : JSValue) (v : JSValue)
    (hv1 : v ≠ JSValue.null) (hv2 : v ≠ JSValue.undefined) :
    safeParse (.optional inner) .null = .success .undefined ∧
    safeParse (.optional inner) .undefined = .success .undefined ∧
    safeParse ((Schema.optional inner).withDefault d) .null = .success d ∧
    safeParse ((Schema.optional inner).withDefault d) .undefined = .success d ∧
    safeParse (.optional inner) v = safeParse inner v ∧
    safeParse ((Schema.optional inner).withDefault d) v = safeParse inner v := by
  refine ⟨by simp [safeParse], by simp [safeParse], by simp [safeParse, Schema.withDefault],
    by simp [safeParse, Schema.withDefault], ?_, ?_⟩ <;>
    cases v <;> simp_all [safeParse, Schema.withDefault]

theorem optionalNullUndefinedDefault_witness :
    safeParse (.optional .bool) .null = .success .undefined ∧
    safeParse (.optional .bool) .undefined = .success .undefined ∧
    safeParse ((Schema.optional .bool).withDefault (.num (.val 7))) .null
      = .success (.num (.val 7)) ∧
    safeParse ((Schema.optional .bool).withDefault (.num (.val 7))) .undefined
      = .success (.num (.val 7)) ∧
    safeParse (.optional .bool) (.bool true) = safeParse .bool (.bool true) ∧
    safeParse ((Schema.optional .bool).withDefault (.num (.val 7))) (.bool true)
      = safeParse .bool (.bool true) :=
  optionalNullUndefinedDefault .bool (.num (.val 7)) (.bool true)
    (by simp) (by simp)

/-- C8: `optional()` on an already-optional schema returns the same
wrapper, `optionalize` is idempotent on every schema, and consequently
`partial()` applied twice yields the same schema (hence identical
validation) as `partial()` applied once. -/
theorem optionalIdempotentPartialTwice :
    (∀ inner, Schema.optionalize (.optional inner) = .optional inner) ∧
    (∀ s, Schema.optionalize (Schema.optionalize s) = Schema.optionalize s) ∧
    (∀ shape sm pm, objectPartialOf (objectPartialOf (.obj shape sm pm))
      = objectPartialOf (.obj shape sm pm)) ∧
    (∀ shape sm pm v, safeParse (objectPartialOf (objectPartialOf (.obj shape sm pm))) v
      = safeParse (objectPartialOf (.obj shape sm pm)) v) := by
  have hidem : ∀ s, Schema.optionalize (Schema.optionalize s) = Schema.optionalize s := by
    intro s; cases s <;> rfl
  have hpp : ∀ shape sm pm, objectPartialOf (objectPartialOf (.obj shape sm pm))
      = objectPartialOf (.obj shape sm pm) := by
    intro shape sm pm
    simp only [objectPartialOf, List.map_map]
    congr 1
    apply List.map_congr_left
    intro p _
    simp [Function.comp, hidem]
  exact ⟨fun inner => rfl, hidem, hpp, fun shape sm pm v => by rw [hpp]⟩

/-- C9: `partial()`, `pick()`, `omit()`, `extend()` and `merge()` each build
a fresh object schema whose `strictMode` and `passthroughMode` are `false`,
whatever the modes of the receiver; in particular a strict schema rejects an
unknown key that its `partial()` accepts. -/
theorem derivedBuildersResetModes :
    (∀ shape sm pm, ∃ shapeP,
      objectPartialOf (.obj shape sm pm) = .obj shapeP false false) ∧
    (∀ shape sm pm keys, ∃ shapeP,
      objectPickOf keys (.obj shape sm pm) = .obj shapeP false false) ∧
    (∀ shape sm pm keys, ∃ shapeP,
      objectOmitOf keys (.obj shape sm pm) = .obj shapeP false false) ∧
    (∀ shape sm pm ext, ∃ shapeP,
      objectExtendOf ext (.obj shape sm pm) = .obj shapeP false false) ∧
    (∀ shape sm pm other, ∃ shapeP,
      objectMergeOf other (.obj shape sm pm) = .obj shapeP false false) ∧
    safeParse (Schema.setStrict (.obj [("a", .str [] [])] false false))
        (.obj [("a", .str "x"), ("b", .num (.val 1))])
      = .failure ⟨["b"], "Unknown key " ++ sq ++ "b" ++ sq, .num (.val 1), "undefined"⟩ ∧
    safeParse (objectPartialOf (Schema.setStrict (.obj [("a", .str [] [])] false false)))
        (.obj [("a", .str "x"), ("b", .num (.val 1))])
      = .success (.obj [("a", .str "x")]) := by
  refine ⟨fun shape sm pm => ⟨_, rfl⟩, fun shape sm pm keys => ⟨_, rfl⟩,
    fun shape sm pm keys => ⟨_, rfl⟩, fun shape sm pm ext => ⟨_, rfl⟩,
    fun shape sm pm other => ⟨_, rfl⟩, ?_, ?_⟩ <;>
    simp [safeParse, Schema.setStrict, objectPartialOf, Schema.optionalize,
      firstUnknown, parseFields, lookupField, applyTransforms, runValidators, sq]

/-- C10: a number schema coerces string input with `parseFloat`: the parse
succeeds with the numeric prefix value whenever one exists (`"42abc"`,
`"12.5px"`), and fails with `Expected number` exactly when no prefix
parses. -/
theorem numberStringCoercionParseFloat :
    (∀ s : String, safeParse (.num []) (.str s) =
      (match parseFloatJS s with
       | .nan => .failure ⟨[], "Expected number", .str s, "number"⟩
       | n => .success (.num n))) ∧
    safeParse (.num []) (.str "42abc") = .success (.num (.val 42)) ∧
    safeParse (.num []) (.str "12.5px") = .success (.num (.val (mkRat 25 2))) ∧
    safeParse (.num []) (.str "abc")
      = .failure ⟨[], "Expected number", .str "abc", "number"⟩ := by
  have hgen : ∀ s : String, safeParse (.num []) (.str s) =
      (match parseFloatJS s with
       | .nan => .failure ⟨[], "Expected number", .str s, "number"⟩
       | n => .success (.num n)) := by
    intro s
    cases h : parseFloatJS s <;> simp [safeParse, h, runValidators]
  refine ⟨hgen, ?_, ?_, ?_⟩
  · rw [hgen]; have : parseFloatJS "42abc" = .val 42 := by decide
    rw [this]
  · rw [hgen]; have : parseFloatJS "12.5px" = .val (mkRat 25 2) := by decide
    rw [this]
  · rw [hgen]; have : parseFloatJS "abc" = .nan := by decide
    rw [this]

-- ============================================================
-- Loop lemmas (field / element / alternative traversal)
-- ============================================================

/-- If every field strictly before `(k, ksch)` validates, the field loop
stops at `(k, ksch)` and returns its error with the key prefixed. -/
theorem parseFields_first_failure (pre : List (String × Schema)) (k : String)
    (ksch : Schema) (post : List (String × Schema)) (fields : List (String × JSValue))
    (e : ValidationError)
    (hpre : ∀ p ∈ pre, ∃ d, safeParse p.2 (lookupField fields p.1) = .success d)
    (hk : safeParse ksch (lookupField fields k) = .failure e) :
    parseFields (pre ++ (k, ksch) :: post) fields = .error { e with path := k :: e.path } := by
  induction pre with
  | nil => simp [parseFields, hk]
  | cons p rest ih =>
    obtain ⟨k0, s0⟩ := p
    obtain ⟨d, hd⟩ := hpre (k0, s0) (by simp)
    have hrest := ih (fun q hq => hpre q (by simp [hq]))
    simp [parseFields, hd, hrest]

/-- If every element strictly before `x` validates, the element loop stops
at `x` and returns its error with the string form of its index prefixed. -/
theorem parseItems_first_failure (item : Schema) (pre : List JSValue) (x : JSValue)
    (post : List JSValue) (e : ValidationError) (i : Nat)
    (hpre : ∀ y ∈ pre, ∃ d, safeParse item y = .success d)
    (hx : safeParse item x = .failure e) :
    parseItems item (pre ++ x :: post) i
      = .error { e with path := toString (i + pre.length) :: e.path } := by
  induction pre generalizing i with
  | nil => simp [parseItems, hx]
  | cons y rest ih =>
    obtain ⟨d, hd⟩ := hpre y (by simp)
    have h2 := ih (i + 1) (fun z hz => hpre z (by simp [hz]))
    have harith : i + 1 + rest.length = i + (rest.length + 1) := by omega
    rw [harith] at h2
    simp [parseItems, hd, h2]

/-- If every alternative strictly before `s` fails, the union loop returns
the success of `s`. -/
theorem parseFirst_first_success (pre : List Schema) (s : Schema) (post : List Schema)
    (v : JSValue) (d : JSValue)
    (hpre : ∀ a ∈ pre, ∃ e, safeParse a v = .failure e)
    (hs : safeParse s v = .success d) :
    parseFirst (pre ++ s :: post) v = some (.success d) := by
  induction pre with
  | nil => simp [parseFirst, hs]
  | cons a rest ih =>
    obtain ⟨e, he⟩ := hpre a (by simp)
    simp [parseFirst, he, ih (fun b hb => hpre b (by simp [hb]))]

/-- If every alternative fails, the union loop returns `none`. -/
theorem parseFirst_all_fail (alts : List Schema) (v : JSValue)
    (h : ∀ a ∈ alts, ∃ e, safeParse a v = .failure e) :
    parseFirst alts v = none := by
  induction alts with
  | nil => simp [parseFirst]
  | cons a rest ih =>
    obtain ⟨e, he⟩ := h a (by simp)
    simp [parseFirst, he, ih (fun b hb => h b (by simp [hb]))]

/-- The strict scan reports the first input key outside the shape. -/
theorem firstUnknown_first (shapeKeys : List String) (pre : List (String × JSValue))
    (k : String) (kv : JSValue) (rest : List (String × JSValue))
    (hpre : ∀ p ∈ pre, shapeKeys.contains p.1 = true)
    (hk : shapeKeys.contains k = false) :
    firstUnknown shapeKeys (pre ++ (k, kv) :: rest) = some (k, kv) := by
  induction pre with
  | nil =>
    show (if shapeKeys.contains k then firstUnknown shapeKeys rest else some (k, kv))
      = some (k, kv)
    rw [hk]
    rfl
  | cons p rest2 ih =>
    show (if shapeKeys.contains p.1 then firstUnknown shapeKeys (rest2 ++ (k, kv) :: rest)
      else some p) = some (k, kv)
    rw [hpre p (by simp)]
    simpa using ih (fun q hq => hpre q (by simp [hq]))

/-- C1: child errors bubble up with the descent segment prefixed: the array
loop prefixes the string form of the failing index, the object loop prefixes
the failing field name, and in particular `{tags: ["ok", 123]}` against
`object({tags: array(string)})` fails with path `["tags", "1"]`. -/
theorem nestedPathAccumulation :
    (∀ (item : Schema) (lvs : List (List JSValue → Option String))
        (pre : List JSValue) (x : JSValue) (post : List JSValue) (e : ValidationError),
      (∀ y ∈ pre, ∃ d, safeParse item y = .success d) →
      safeParse item x = .failure e →
      runValidators lvs (pre ++ x :: post) = none →
      safeParse (.arr item lvs) (.arr (pre ++ x :: post))
        = .failure { e with path := toString pre.length :: e.path }) ∧
    (∀ (preS : List (String × Schema)) (k : String) (ksch : Schema)
        (postS : List (String × Schema)) (sm pm : Bool)
        (fields : List (String × JSValue)) (e : ValidationError),
      (sm = true →
        firstUnknown ((preS ++ (k, ksch) :: postS).map Prod.fst) fields = none) →
      (∀ p ∈ preS, ∃ d, safeParse p.2 (lookupField fields p.1) = .success d) →
      safeParse ksch (lookupField fields k) = .failure e →
      safeParse (.obj (preS ++ (k, ksch) :: postS) sm pm) (.obj fields)
        = .failure { e with path := k :: e.path }) ∧
    safeParse (.obj [("tags", .arr (.str [] []) [])] false false)
        (.obj [("tags", .arr [.str "ok", .num (.val 123)])])
      = .failure ⟨["tags", "1"], "Expected string", .num (.val 123), "string"⟩ := by
  refine ⟨?_, ?_, ?_⟩
  · intro item lvs pre x post e hpre hx hlv
    have h := parseItems_first_failure item pre x post e 0 hpre hx
    simp at h
    simp [safeParse, hlv, h]
  · intro preS k ksch postS sm pm fields e hsm hpre hk
    have h := parseFields_first_failure preS k ksch postS fields e hpre hk
    cases sm with
    | false => simp [safeParse, h]
    | true =>
      have h2 := hsm rfl
      simp only [List.map_append, List.map_cons] at h2
      simp [safeParse, h2, h]
  · have h1 : toString (1 : Nat) = "1" := by decide
    simp [safeParse, parseFields, parseItems, lookupField, runValidators,
      applyTransforms, h1]

theorem nestedPathAccumulation_witness :
    safeParse (.arr .bool []) (.arr [.bool true, .str "x"])
      = .failure ⟨["1"], "Expected boolean", .str "x", "boolean"⟩ ∧
    safeParse (.obj [("a", .bool), ("b", .bool)] false false)
        (.obj [("a", .bool true), ("b", .str "y")])
      = .failure ⟨["b"], "Expected boolean", .str "y", "boolean"⟩ := by
  constructor
  · have h := nestedPathAccumulation.1 .bool [] [.bool true] (.str "x") []
      ⟨[], "Expected boolean", .str "x", "boolean"⟩
      (by intro y hy; simp at hy; subst hy; exact ⟨.bool true, by simp [safeParse]⟩)
      (by simp [safeParse])
      (by simp [runValidators])
    have h1 : toString (1 : Nat) = "1" := by decide
    simpa [h1] using h
  · exact nestedPathAccumulation.2.1 [("a", Schema.bool)] "b" .bool [] false false
      [("a", .bool true), ("b", .str "y")]
      ⟨[], "Expected boolean", .str "y", "boolean"⟩
      (by intro hsm; cases hsm)
      (by intro p hp; simp at hp; subst hp; exact ⟨.bool true, by simp [safeParse, lookupField]⟩)
      (by simp [safeParse, lookupField])

/-- C2: object validation is fail-fast in shape-declaration order: when the
fields before `k` validate and `k` fails, the object reports the error of
`k`, whatever comes after; for `{name min(2), email email()}` on
`{name: "A", email: "bad"}` the reported error is the one for `name`, even
though `email` is also invalid. -/
theorem firstFailingFieldWins :
    (∀ (preS : List (String × Schema)) (k : String) (ksch : Schema)
        (postS : List (String × Schema)) (pm : Bool)
        (fields : List (String × JSValue)) (e : ValidationError),
      (∀ p ∈ preS, ∃ d, safeParse p.2 (lookupField fields p.1) = .success d) →
      safeParse ksch (lookupField fields k) = .failure e →
      safeParse (.obj (preS ++ (k, ksch) :: postS) false pm) (.obj fields)
        = .failure { e with path := k :: e.path }) ∧
    safeParse
        (.obj [("name", .str [] [minLengthValidator 2 none]),
               ("email", .str [] [emailValidator none])] false false)
        (.obj [("name", .str "A"), ("email", .str "bad")])
      = .failure ⟨["name"], "Must be at least 2 characters", .str "A", "string"⟩ ∧
    safeParse (.str [] [emailValidator none]) (.str "bad")
      = .failure ⟨[], "Invalid email address", .str "bad", "string"⟩ := by
  refine ⟨?_, ?_, ?_⟩
  · intro preS k ksch postS pm fields e hpre hk
    have h := parseFields_first_failure preS k ksch postS fields e hpre hk
    simp [safeParse, h]
  · have hmin : minLengthValidator 2 none "A" = some "Must be at least 2 characters" := by decide
    simp [safeParse, parseFields, lookupField, applyTransforms, runValidators, hmin]
  · have hmail : emailValidator none "bad" = some "Invalid email address" := by decide
    simp [safeParse, applyTransforms, runValidators, hmail]

theorem firstFailingFieldWins_witness :
    safeParse (.obj [("a", .bool), ("b", .bool)] false false)
        (.obj [("a", .bool true), ("b", .str "y")])
      = .failure ⟨["b"], "Expected boolean", .str "y", "boolean"⟩ :=
  firstFailingFieldWins.1 [("a", Schema.bool)] "b" .bool [] false
    [("a", .bool true), ("b", .str "y")]
    ⟨[], "Expected boolean", .str "y", "boolean"⟩
    (by intro p hp; simp at hp; subst hp; exact ⟨.bool true, by simp [safeParse, lookupField]⟩)
    (by simp [safeParse, lookupField])

/-- C3: with strict mode on, an input containing a key outside the shape
fails with the unknown-key error (path `[key]`, message naming it), whatever
`passthroughMode` is and whatever the field schemas would do; in particular
strict wins over passthrough when both are enabled. -/
theorem strictPrecedesPassthrough :
    (∀ (shape : List (String × Schema)) (pm : Bool)
        (pre : List (String × JSValue)) (k : String) (kv : JSValue)
        (rest : List (String × JSValue)),
      (∀ p ∈ pre, (shape.map Prod.fst).contains p.1 = true) →
      (shape.map Prod.fst).contains k = false →
      safeParse (.obj shape true pm) (.obj (pre ++ (k, kv) :: rest))
        = .failure ⟨[k], "Unknown key " ++ sq ++ k ++ sq, kv, "undefined"⟩) ∧
    safeParse (Schema.setPassthrough (Schema.setStrict (.obj [("a", .bool)] false false)))
        (.obj [("a", .bool true), ("zzz", .num (.val 9))])
      = .failure ⟨["zzz"], "Unknown key " ++ sq ++ "zzz" ++ sq, .num (.val 9), "undefined"⟩ := by
  constructor
  · intro shape pm pre k kv rest hpre hk
    have h := firstUnknown_first (shape.map Prod.fst) pre k kv rest hpre hk
    simp [safeParse, h]
  · simp [safeParse, Schema.setStrict, Schema.setPassthrough, firstUnknown]

theorem strictPrecedesPassthrough_witness :
    safeParse (.obj [("a", .bool)] true true)
        (.obj [("a", .bool true), ("zzz", .num (.val 9))])
      = .failure ⟨["zzz"], "Unknown key " ++ sq ++ "zzz" ++ sq, .num (.val 9), "undefined"⟩ :=
  strictPrecedesPassthrough.1 [("a", Schema.bool)] true
    [("a", .bool true)] "zzz" (.num (.val 9)) []
    (by intro p hp; simp at hp; subst hp; simp)
    (by simp)

/-- C5: a union tries its alternatives in declared order and returns the
first success; when every alternative fails it returns one combined error
whose `expected` joins the type tags with a bar and whose message says no
alternative matched, discarding the individual errors. -/
theorem unionOrderedFirstMatch :
    (∀ (pre : List Schema) (s : Schema) (post : List Schema) (v d : JSValue),
      (∀ a ∈ pre, ∃ e, safeParse a v = .failure e) →
      safeParse s v = .success d →
      safeParse (.union (pre ++ s :: post)) v = .success d) ∧
    (∀ (alts : List Schema) (v : JSValue),
      (∀ a ∈ alts, ∃ e, safeParse a v = .failure e) →
      safeParse (.union alts) v
        = .failure ⟨[], "Value did not match any schema in union", v,
            String.intercalate " | " (alts.map Schema.typeTag)⟩) ∧
    safeParse (.union [.str [] [], .num []]) (.bool false)
      = .failure ⟨[], "Value did not match any schema in union", .bool false,
          "string | number"⟩ := by
  refine ⟨?_, ?_, ?_⟩
  · intro pre s post v d hpre hs
    simp [safeParse, parseFirst_first_success pre s post v d hpre hs]
  · intro alts v h
    simp [safeParse, parseFirst_all_fail alts v h]
  · simp [safeParse, parseFirst, Schema.typeTag]
    decide

theorem unionOrderedFirstMatch_witness :
    safeParse (.union [.bool, .num []]) (.bool true) = .success (.bool true) ∧
    safeParse (.union [.bool]) (.arr [])
      = .failure ⟨[], "Value did not match any schema in union", .arr [], "boolean"⟩ := by
  constructor
  · exact unionOrderedFirstMatch.1 [] .bool [.num []] (.bool true) (.bool true)
      (by intro a ha; simp at ha)
      (by simp [safeParse])
  · have h := unionOrderedFirstMatch.2.1 [.bool] (.arr [])
      (by intro a ha; simp at ha; subst ha;
          exact ⟨⟨[], "Expected boolean", .arr [], "boolean"⟩, by simp [safeParse]⟩)
    simpa [Schema.typeTag] using h

/-- C4: with a body schema declared, a JSON decode failure yields the
generic 400 `Invalid JSON body` (distinct from every structured validation
response), a schema failure yields the structured 400 built from the
`ValidationError`, a handler that throws a `FloatValidationError` gets its
structured 400, and any other handler exception yields the generic 500. -/
theorem typedRouteErrorChannels :
    (∀ (options : TypedRouteOptions) (handler : ValidatedData → Except JSException ModelResponse)
        (request : ModelRequest) (bodySchema : Schema),
      options.body = some bodySchema →
      request.jsonBody = .error () →
      typedRoute options handler request = invalidJsonResponse) ∧
    (∀ (options : TypedRouteOptions) (handler : ValidatedData → Except JSException ModelResponse)
        (request : ModelRequest) (bodySchema : Schema) (b : JSValue) (e : ValidationError),
      options.body = some bodySchema →
      request.jsonBody = .ok b →
      safeParse bodySchema b = .failure e →
      typedRoute options handler request = fveToResponse [e]) ∧
    (∀ (bodySchema : Schema) (handler : ValidatedData → Except JSException ModelResponse)
        (request : ModelRequest) (b d : JSValue) (errs : List ValidationError),
      request.jsonBody = .ok b →
      safeParse bodySchema b = .success d →
      handler ⟨d, .undefined, .undefined⟩ = .error (.validation errs) →
      typedRoute ⟨some bodySchema, none, none⟩ handler request = fveToResponse errs) ∧
    (∀ (bodySchema : Schema) (handler : ValidatedData → Except JSException ModelResponse)
        (request : ModelRequest) (b d : JSValue),
      request.jsonBody = .ok b →
      safeParse bodySchema b = .success d →
      handler ⟨d, .undefined, .undefined⟩ = .error .other →
      typedRoute ⟨some bodySchema, none, none⟩ handler request = internalErrorResponse) ∧
    invalidJsonResponse.status = 400 ∧ internalErrorResponse.status = 500 ∧
    (∀ errs, (fveToResponse errs).status = 400) ∧
    (∀ e, invalidJsonResponse ≠ fveToResponse [e]) := by
  refine ⟨?_, ?_, ?_, ?_, rfl, rfl, fun errs => rfl, ?_⟩
  · intro options handler request bodySchema hb hj
    simp [typedRoute, hb, hj]
  · intro options handler request bodySchema b e hb hj hs
    simp [typedRoute, hb, hj, hs]
  · intro bodySchema handler request b d errs hj hs hh
    simp [typedRoute, hj, hs, hh]
  · intro bodySchema handler request b d hj hs hh
    simp [typedRoute, hj, hs, hh]
  · intro e
    simp [invalidJsonResponse, fveToResponse, fveToJSON]

theorem typedRouteErrorChannels_witness :
    typedRoute ⟨some .bool, none, none⟩ (fun _ => .ok ⟨200, .null⟩)
        ⟨.error (), [], .null⟩ = invalidJsonResponse ∧
    typedRoute ⟨some .bool, none, none⟩ (fun _ => .ok ⟨200, .null⟩)
        ⟨.ok (.arr []), [], .null⟩
      = fveToResponse [⟨[], "Expected boolean", .arr [], "boolean"⟩] ∧
    typedRoute ⟨some .bool, none, none⟩
        (fun _ => .error (.validation [⟨["x"], "boom", .null, "t"⟩]))
        ⟨.ok (.bool true), [], .null⟩
      = fveToResponse [⟨["x"], "boom", .null, "t"⟩] ∧
    typedRoute ⟨some .bool, none, none⟩ (fun _ => .error .other)
        ⟨.ok (.bool true), [], .null⟩ = internalErrorResponse := by
  refine ⟨?_, ?_, ?_, ?_⟩
  · exact typedRouteErrorChannels.1 ⟨some .bool, none, none⟩ (fun _ => .ok ⟨200, .null⟩)
      ⟨.error (), [], .null⟩ .bool rfl rfl
  · exact typedRouteErrorChannels.2.1 ⟨some .bool, none, none⟩ (fun _ => .ok ⟨200, .null⟩)
      ⟨.ok (.arr []), [], .null⟩ .bool (.arr []) ⟨[], "Expected boolean", .arr [], "boolean"⟩
      rfl rfl (by simp [safeParse])
  · exact typedRouteErrorChannels.2.2.1 .bool
      (fun _ => .error (.validation [⟨["x"], "boom", .null, "t"⟩]))
      ⟨.ok (.bool true), [], .null⟩ (.bool true) (.bool true) [⟨["x"], "boom", .null, "t"⟩]
      rfl (by simp [safeParse]) rfl
  · exact typedRouteErrorChannels.2.2.2.1 .bool (fun _ => .error .other)
      ⟨.ok (.bool true), [], .null⟩ (.bool true) (.bool true)
      rfl (by simp [safeParse]) rfl

/-- When every input key is declared, the strict scan finds nothing. -/
theorem firstUnknown_none (shapeKeys : List String) (fields : List (String × JSValue))
    (h : ∀ p ∈ fields, shapeKeys.contains p.1 = true) :
    firstUnknown shapeKeys fields = none := by
  induction fields with
  | nil => rfl
  | cons p rest ih =>
    show (if shapeKeys.contains p.1 then firstUnknown shapeKeys rest else some p) = none
    rw [h p (by simp)]
    simpa using ih (fun q hq => h q (by simp [hq]))

/-- A member of a union-free shape has a union-free field schema. -/
theorem unionFreeShape_mem : ∀ (shape : List (String × Schema)) (p : String × Schema),
    p ∈ shape → unionFreeShape shape = true → unionFree p.2 = true := by
  intro shape
  induction shape with
  | nil => intro p hp _; cases hp
  | cons q rest ih =>
    intro p hp hall
    obtain ⟨k, fsch⟩ := q
    have h2 : unionFree fsch = true ∧ unionFreeShape rest = true := by
      simpa [unionFreeShape, Bool.and_eq_true] using hall
    rcases List.mem_cons.mp hp with hp2 | hp2
    · subst hp2; simpa using h2.1
    · exact ih p hp2 h2.2

/-- C6 counterexample: `"42"` is a string matching the declared string
alternative of `union([number(), string()])` with no constraints and no
transforms, yet `safeParse` returns the coerced number `42`, which is not
structurally equal to the input. -/
theorem roundTripCounterexample :
    matchesShape (.str [] []) (.str "42") = true ∧
    safeParse (.union [.num [], .str [] []]) (.str "42") = .success (.num (.val 42)) ∧
    JSValue.num (.val 42) ≠ JSValue.str "42" := by
  refine ⟨by simp [matchesShape, runValidators, applyTransforms], ?_, by simp⟩
  have h : parseFloatJS "42" = .val 42 := by decide
  simp [safeParse, parseFirst, h, runValidators]

/-- C6 (amended to union-free schemas): on a union-free schema, every input
of the declared kind satisfying all constraints parses successfully, and the
output is the input up to declared string transforms and optional-default
substitution — arrays are rebuilt elementwise in order, objects are rebuilt
with exactly the declared fields carrying the looked-up input values. -/
theorem roundTripUnionFree (s : Schema) (v : JSValue)
    (hu : unionFree s = true) (hm : matchesShape s v = true) :
    safeParse s v = .success (conform s v) := by
  have main : ∀ (n : Nat) (s : Schema), sizeOf s ≤ n → ∀ v : JSValue,
      unionFree s = true → matchesShape s v = true →
      safeParse s v = .success (conform s v) := by
    intro n
    induction n with
    | zero =>
      intro s hs
      exfalso
      cases s <;> simp_arith at hs
    | succ n ih =>
      intro s hs v hu hm
      cases s with
      | str ts vs =>
        cases v <;> simp [matchesShape] at hm
        case str s0 => simp [safeParse, conform, hm]
      | num nvs =>
        cases v with
        | num n0 =>
          cases n0 with
          | nan => simp [matchesShape] at hm
          | inf b =>
            simp [matchesShape] at hm
            simp [safeParse, conform, hm]
          | val q =>
            simp [matchesShape] at hm
            simp [safeParse, conform, hm]
        | null => simp [matchesShape] at hm
        | undefined => simp [matchesShape] at hm
        | str s0 => simp [matchesShape] at hm
        | bool b => simp [matchesShape] at hm
        | arr es => simp [matchesShape] at hm
        | obj fs => simp [matchesShape] at hm
      | bool =>
        cases v <;> simp [matchesShape] at hm
        case bool b => simp [safeParse, conform]
      | enum values =>
        cases v <;> simp [matchesShape] at hm
        case str s0 => simp [safeParse, conform, hm]
      | arr item lvs =>
        cases v <;> simp [matchesShape] at hm
        case arr elems =>
          obtain ⟨hlv, hitems⟩ := hm
          have hsz : sizeOf item ≤ n := by
            have := hs
            simp_arith [Schema.arr.sizeOf_spec] at this
            omega
          have hu2 : unionFree item = true := by simpa [unionFree] using hu
          have hloop : ∀ (xs : List JSValue) (i : Nat), matchesItems item xs = true →
              parseItems item xs i = .ok (conformItems item xs) := by
            intro xs
            induction xs with
            | nil => intro i _; simp [parseItems, conformItems]
            | cons x rest ihx =>
              intro i hxs
              have hxs2 : matchesShape item x = true ∧ matchesItems item rest = true := by
                simpa [matchesItems, Bool.and_eq_true] using hxs
              have h1 := ih item hsz x hu2 hxs2.1
              simp [parseItems, conformItems, h1, ihx (i + 1) hxs2.2]
          simp [safeParse, conform, hlv, hloop elems 0 hitems]
      | obj shape sm pm =>
        cases v <;> simp [matchesShape] at hm
        case obj fields =>
          obtain ⟨hkeys, hflds⟩ := hm
          have hsub : ∀ p ∈ shape, sizeOf p.2 ≤ n ∧ unionFree p.2 = true := by
            intro p hp
            refine ⟨?_, unionFreeShape_mem shape p hp (by simpa [unionFree] using hu)⟩
            have h1 := List.sizeOf_lt_of_mem hp
            have h2 := hs
            obtain ⟨k, fsch⟩ := p
            simp_arith [Schema.obj.sizeOf_spec, Prod.mk.sizeOf_spec] at h1 h2 ⊢
            omega
          have hfields : ∀ (sh : List (String × Schema)),
              (∀ p ∈ sh, sizeOf p.2 ≤ n ∧ unionFree p.2 = true) →
              ∀ flds, matchesFields sh flds = true →
              parseFields sh flds = .ok (conformFields sh flds) := by
            intro sh
            induction sh with
            | nil => intro _ flds _; simp [parseFields, conformFields]
            | cons p rest ihs =>
              intro hall flds hmf
              obtain ⟨k, fsch⟩ := p
              have hmf2 : matchesShape fsch (lookupField flds k) = true ∧
                  matchesFields rest flds = true := by
                simpa [matchesFields, Bool.and_eq_true] using hmf
              have h1 := ih fsch (hall (k, fsch) (by simp)).1 (lookupField flds k)
                (hall (k, fsch) (by simp)).2 hmf2.1
              simp [parseFields, conformFields, h1,
                ihs (fun q hq => hall q (by simp [hq])) flds hmf2.2]
          have hcont : ∀ p ∈ fields, (shape.map Prod.fst).contains p.1 = true := by
            intro p hp
            obtain ⟨x, hx⟩ := hkeys p.1 p.2 hp
            have hmem : p.1 ∈ shape.map Prod.fst := List.mem_map.mpr ⟨(p.1, x), hx, rfl⟩
            simpa using hmem
          have hstrict : firstUnknown (shape.map Prod.fst) fields = none :=
            firstUnknown_none (shape.map Prod.fst) fields hcont
          simp [safeParse, conform, hstrict, hfields shape hsub fields hflds]
          exact fun _ => hkeys
      | union alts => simp [unionFree] at hu
      | optional inner =>
        have hsz : sizeOf inner ≤ n := by
          have := hs
          simp_arith [Schema.optional.sizeOf_spec] at this
          omega
        have hu2 : unionFree inner = true := by simpa [unionFree] using hu
        cases v with
        | null => simp [safeParse, conform]
        | undefined => simp [safeParse, conform]
        | str s0 =>
          have h1 := ih inner hsz (.str s0) hu2 (by simpa [matchesShape] using hm)
          simp [safeParse, conform, h1]
        | num n0 =>
          have h1 := ih inner hsz (.num n0) hu2 (by simpa [matchesShape] using hm)
          simp [safeParse, conform, h1]
        | bool b =>
          have h1 := ih inner hsz (.bool b) hu2 (by simpa [matchesShape] using hm)
          simp [safeParse, conform, h1]
        | arr elems =>
          have h1 := ih inner hsz (.arr elems) hu2 (by simpa [matchesShape] using hm)
          simp [safeParse, conform, h1]
        | obj fields =>
          have h1 := ih inner hsz (.obj fields) hu2 (by simpa [matchesShape] using hm)
          simp [safeParse, conform, h1]
      | optionalDefault inner d =>
        have hsz : sizeOf inner ≤ n := by
          have := hs
          simp_arith [Schema.optionalDefault.sizeOf_spec] at this
          omega
        have hu2 : unionFree inner = true := by simpa [unionFree] using hu
        cases v with
        | null => simp [safeParse, conform]
        | undefined => simp [safeParse, conform]
        | str s0 =>
          have h1 := ih inner hsz (.str s0) hu2 (by simpa [matchesShape] using hm)
          simp [safeParse, conform, h1]
        | num n0 =>
          have h1 := ih inner hsz (.num n0) hu2 (by simpa [matchesShape] using hm)
          simp [safeParse, conform, h1]
        | bool b =>
          have h1 := ih inner hsz (.bool b) hu2 (by simpa [matchesShape] using hm)
          simp [safeParse, conform, h1]
        | arr elems =>
          have h1 := ih inner hsz (.arr elems) hu2 (by simpa [matchesShape] using hm)
          simp [safeParse, conform, h1]
        | obj fields =>
          have h1 := ih inner hsz (.obj fields) hu2 (by simpa [matchesShape] using hm)
          simp [safeParse, conform, h1]
  exact main (sizeOf s) s le_rfl v hu hm

theorem roundTripUnionFree_witness :
    unionFree (.obj [("a", .str [] []), ("b", .arr (.num []) [])] false false) = true ∧
    matchesShape (.obj [("a", .str [] []), ("b", .arr (.num []) [])] false false)
      (.obj [("b", .arr [.num (.val 1)]), ("a", .str "x")]) = true ∧
    safeParse (.obj [("a", .str [] []), ("b", .arr (.num []) [])] false false)
        (.obj [("b", .arr [.num (.val 1)]), ("a", .str "x")])
      = .success (conform (.obj [("a", .str [] []), ("b", .arr (.num []) [])] false false)
          (.obj [("b", .arr [.num (.val 1)]), ("a", .str "x")])) := by
  refine ⟨by simp [unionFree, unionFreeShape], ?_, ?_⟩
  · simp [matchesShape, matchesFields, matchesItems, lookupField, runValidators,
      applyTransforms]
  · exact roundTripUnionFree _ _ (by simp [unionFree, unionFreeShape])
      (by simp [matchesShape, matchesFields, matchesItems, lookupField, runValidators,
        applyTransforms])

end FloatJs
